import Mathlib

/-!
Verification of the MRITC demo pipeline (mritc_demo.pipeline.py).

This file gives a shallow embedding of the string- and list-level logic of the
pipeline: the filename standardizer (`get_image_output_file_name`), the MP4
timestamp extractor (`get_mp4_timestamp`), the file router (`_process`) and the
output mapper (`_package`).  Python strings are modelled as `List Char`
(`PyStr`); Python's `str.split`, negative indexing, `int(...)`, `pathlib`
stem/suffix/name and `%04d` formatting are modelled by executable functions
below.  External effects (PIL image opening and EXIF reading, the ffprobe
subprocess, `Path.rename`, the directory listing, and the parsed telemetry CSV)
are inputs to the model, supplied by the caller.  Exceptions escaping a Python
function are modelled with `Except`; caught-and-logged failures return normally
together with a list of `LogEvent`s (the logging calls themselves are modelled
only by these events).
-/

set_option maxRecDepth 10000

/-- A Python string, modelled as its list of characters. -/
abbrev PyStr := List Char

/-- Python's `s.split(sep)` for a single-character separator: splits at every
occurrence of `sep`, keeping empty pieces; the result is always non-empty
(`"".split(sep) == [""]`). -/
def pySplit (sep : Char) : PyStr → List PyStr
  | [] => [[]]
  | c :: rest =>
    if c = sep then [] :: pySplit sep rest
    else
      match pySplit sep rest with
      | [] => [[c]]
      | t :: ts => (c :: t) :: ts

/-- Python's `l[i]` for a non-negative index: `some` the element, `none` models
the `IndexError` raised when the index is out of range. -/
def pyIdx (l : List α) (i : Nat) : Option α := l.get? i

/-- Python's `l[-k]` (for `k ≥ 1`): `none` models the `IndexError` raised when
the list has fewer than `k` elements. -/
def pyIdxNeg (l : List α) (k : Nat) : Option α :=
  if 1 ≤ k ∧ k ≤ l.length then l.get? (l.length - k) else none

/-- First element of a split result (`split(...)[0]`); split results are never
empty so the default is never used. -/
def pyHeadD (l : List PyStr) : PyStr := l.headD []

/-- Last element of a split result (`split(...)[-1]`); split results are never
empty so the default is never used. -/
def pyLast (l : List PyStr) : PyStr := l.getLastD []

/-- Index of the last occurrence of a dot in a name (Python `name.rfind('.')`),
or `none` when there is no dot. -/
def lastDotFrom : PyStr → Option Nat
  | [] => none
  | c :: rest =>
    match lastDotFrom rest with
    | some i => some (i + 1)
    | none => if c = '.' then some 0 else none

/-- `pathlib` stem of a file name: the name up to its last dot, except that a
dot in position 0 (a dotfile) does not begin a suffix. -/
def pyStem (name : PyStr) : PyStr :=
  match lastDotFrom name with
  | some i => if i = 0 then name else name.take i
  | none => name

/-- `pathlib` suffix of a file name (including the dot), `[]` when there is
none. -/
def pySuffix (name : PyStr) : PyStr :=
  match lastDotFrom name with
  | some i => if i = 0 then [] else name.drop i
  | none => []

/-- Final path component of a path string (`pathlib` `.name`). -/
def pyName (path : PyStr) : PyStr := pyLast (pySplit '/' path)

/-- Python `str.lower()` restricted to ASCII, which is all the pipeline needs
(file extensions). -/
def pyLower (s : PyStr) : PyStr := s.map Char.toLower

/-- Python `str.strip()` (ASCII whitespace; the pipeline only strips ffprobe
output, which is ASCII). -/
def pyStrip (s : PyStr) : PyStr :=
  ((s.dropWhile Char.isWhitespace).reverse.dropWhile Char.isWhitespace).reverse

/-- Numeric value of a decimal digit character. -/
def c2n (c : Char) : Nat := c.toNat - 48

/-- Value of a list of decimal digit characters, most significant first. -/
def digitsToNat (ds : PyStr) : Nat := ds.foldl (fun a c => 10 * a + c2n c) 0

/-- Python `int(s)`: optional surrounding whitespace, an optional sign, then a
non-empty run of decimal digits; `none` models the `ValueError` raised
otherwise.  (Underscore digit grouping and non-ASCII digits, which `int`
also accepts, never occur in this pipeline's inputs because the parsed tokens
come from `'_'`-splits of ASCII paths.) -/
def pyInt (s : PyStr) : Option Int :=
  match pyStrip s with
  | '-' :: ds =>
    if !ds.isEmpty && ds.all Char.isDigit then some (-(digitsToNat ds : Int)) else none
  | '+' :: ds =>
    if !ds.isEmpty && ds.all Char.isDigit then some ((digitsToNat ds : Int)) else none
  | ds =>
    if !ds.isEmpty && ds.all Char.isDigit then some ((digitsToNat ds : Int)) else none

/-- Decimal digits of `n`, most significant first, via an explicit fuel
argument (`fuel ≥ n` suffices; `natToDigits` always supplies enough). -/
def natToDigitsAux : Nat → Nat → PyStr
  | 0, _ => []
  | fuel + 1, n =>
    if n < 10 then [Nat.digitChar n]
    else natToDigitsAux fuel (n / 10) ++ [Nat.digitChar (n % 10)]

/-- Decimal digit string of a natural number. -/
def natToDigits (n : Nat) : PyStr := natToDigitsAux (n + 1) n

/-- Left-pad a digit string with `'0'` up to width `w`. -/
def padLeft0 (w : Nat) (ds : PyStr) : PyStr := List.replicate (w - ds.length) '0' ++ ds

/-- Python `f"{i:04d}"`: the decimal form of `i` padded with zeros to a total
width of 4, the sign (for negative `i`) counting toward the width. -/
def pyFormat04d (i : Int) : PyStr :=
  if i < 0 then '-' :: padLeft0 3 (natToDigits i.natAbs) else padLeft0 4 (natToDigits i.toNat)

/-- A wall-clock instant at whole-second resolution (the pipeline's canonical
timestamp; `datetime` values in the code always carry UTC). -/
structure Timestamp where
  year : Nat
  month : Nat
  day : Nat
  hour : Nat
  minute : Nat
  second : Nat
deriving DecidableEq

/-- Gregorian leap-year test. -/
def isLeap (y : Nat) : Bool := (y % 4 == 0 && y % 100 != 0) || y % 400 == 0

/-- Days in a month of the Gregorian calendar. -/
def daysInMonth (y m : Nat) : Nat :=
  if m = 2 then (if isLeap y then 29 else 28)
  else if m = 4 || m = 6 || m = 9 || m = 11 then 30 else 31

/-- Field ranges accepted by Python's `datetime` constructor (which
`strptime` and `pandas.to_datetime` invoke): this is the combined validation
performed after the per-field digit matching. -/
def tsValid (y mo d h mi s : Nat) : Bool :=
  1 ≤ y && y ≤ 9999 && 1 ≤ mo && mo ≤ 12 && 1 ≤ d && d ≤ daysInMonth y mo &&
    h ≤ 23 && mi ≤ 59 && s ≤ 59

/-- Build a `Timestamp` after `datetime` range validation; `none` models the
`ValueError` raised for out-of-range fields. -/
def mkValidTs (y mo d h mi s : Nat) : Option Timestamp :=
  if tsValid y mo d h mi s then some ⟨y, mo, d, h, mi, s⟩ else none

/-- Validity of a timestamp: exactly the ranges `tsValid` checks. -/
def Timestamp.Valid (t : Timestamp) : Prop :=
  tsValid t.year t.month t.day t.hour t.minute t.second = true

instance (t : Timestamp) : Decidable t.Valid := by
  unfold Timestamp.Valid; infer_instance

/-- Two decimal digit characters read as a number (`none` on a non-digit). -/
def rd2 (a b : Char) : Option Nat :=
  if a.isDigit && b.isDigit then some (10 * c2n a + c2n b) else none

/-- Four decimal digit characters read as a number (`none` on a non-digit). -/
def rd4 (a b c d : Char) : Option Nat :=
  if a.isDigit && b.isDigit && c.isDigit && d.isDigit then
    some (1000 * c2n a + 100 * c2n b + 10 * c2n c + c2n d)
  else none

/-- Model of `datetime.strptime(s, "%Y:%m:%d %H:%M:%S")` (the EXIF DateTime
format) on its zero-padded canonical form, which is the form EXIF stores:
four year digits, two digits for each remaining field, with `datetime`'s
range validation; `none` models the `ValueError` on any other input. -/
def parseExifDateTime : PyStr → Option Timestamp
  | [y1, y2, y3, y4, ':', m1, m2, ':', d1, d2, ' ', h1, h2, ':', i1, i2, ':', s1, s2] =>
    match rd4 y1 y2 y3 y4, rd2 m1 m2, rd2 d1 d2, rd2 h1 h2, rd2 i1 i2, rd2 s1 s2 with
    | some y, some mo, some d, some h, some mi, some s => mkValidTs y mo d h mi s
    | _, _, _, _, _, _ => none
  | _ => none

/-- Model of parsing the compact ISO form `"%Y%m%dT%H%M%SZ"` (used by
`pd.to_datetime` in `_package` and by `datetime.strptime` for
`image_datetime`): four year digits, two digits per remaining field, the
literal `T` and `Z`, with range validation. -/
def parseCompact : PyStr → Option Timestamp
  | [y1, y2, y3, y4, m1, m2, d1, d2, 'T', h1, h2, i1, i2, s1, s2, 'Z'] =>
    match rd4 y1 y2 y3 y4, rd2 m1 m2, rd2 d1 d2, rd2 h1 h2, rd2 i1 i2, rd2 s1 s2 with
    | some y, some mo, some d, some h, some mi, some s => mkValidTs y mo d h mi s
    | _, _, _, _, _, _ => none
  | _ => none

/-- Model of `datetime.strptime(s, "%Y-%m-%dT%H:%M:%S.%fZ")` (the ffprobe
creation-time format) on its zero-padded canonical form: the dated prefix,
a fractional part of one to six digits, and a final `Z`.  The fractional
digits are validated and then discarded, because the pipeline immediately
re-formats with the fraction-free `"%Y%m%dT%H%M%SZ"`. -/
def parseCreationTime : PyStr → Option Timestamp
  | y1 :: y2 :: y3 :: y4 :: '-' :: m1 :: m2 :: '-' :: d1 :: d2 :: 'T' ::
      h1 :: h2 :: ':' :: i1 :: i2 :: ':' :: s1 :: s2 :: '.' :: rest =>
    if rest.getLast? = some 'Z' && 1 ≤ rest.dropLast.length && rest.dropLast.length ≤ 6 &&
        rest.dropLast.all Char.isDigit then
      match rd4 y1 y2 y3 y4, rd2 m1 m2, rd2 d1 d2, rd2 h1 h2, rd2 i1 i2, rd2 s1 s2 with
      | some y, some mo, some d, some h, some mi, some s => mkValidTs y mo d h mi s
      | _, _, _, _, _, _ => none
    else none
  | _ => none

/-- Two-digit zero-padded decimal field of `strftime`. -/
def pad2 (n : Nat) : PyStr := [Nat.digitChar (n / 10 % 10), Nat.digitChar (n % 10)]

/-- Four-digit zero-padded decimal field of `strftime` (`%Y` with the
`datetime`-guaranteed bound `year ≤ 9999`). -/
def pad4 (n : Nat) : PyStr :=
  [Nat.digitChar (n / 1000 % 10), Nat.digitChar (n / 100 % 10),
    Nat.digitChar (n / 10 % 10), Nat.digitChar (n % 10)]

/-- Model of `dt.strftime("%Y%m%dT%H%M%SZ")`: the compact ISO timestamp. -/
def formatCompact (t : Timestamp) : PyStr :=
  pad4 t.year ++ pad2 t.month ++ pad2 t.day ++ 'T' ::
    (pad2 t.hour ++ pad2 t.minute ++ pad2 t.second ++ ['Z'])

/-- Days from 1970-01-01 of a Gregorian civil date (Hinnant's algorithm,
with truncating integer division just as pandas/datetime arithmetic
ultimately computes); used only to compare timestamp differences. -/
def daysFromCivil (y m d : Int) : Int :=
  let yy := if m ≤ 2 then y - 1 else y
  let era := (if 0 ≤ yy then yy else yy - 399) / 400
  let yoe := yy - era * 400
  let mp := (m + 9) % 12
  let doy := (153 * mp + 2) / 5 + d - 1
  let doe := yoe * 365 + yoe / 4 - yoe / 100 + doy
  era * 146097 + doe - 719468

/-- Seconds from the epoch of a timestamp; timestamp subtraction in
`_package` (`pandas` Timedelta) is the difference of these values. -/
def toSec (t : Timestamp) : Int :=
  daysFromCivil t.year t.month t.day * 86400 + t.hour * 3600 + t.minute * 60 + t.second

/-! ## Pipeline configuration constants and name builders -/

/-- The underscore separator used by the naming scheme. -/
def sepU : PyStr := "_".data

/-- The fixed literal segment of still names: `_SCP_`. -/
def scpSeg : PyStr := "_SCP_".data

/-- The token between platform and voyage in still names (`SCP`). -/
def scpTok : PyStr := "SCP".data

/-- Uppercase still extension `.JPG` appended by the standardizer. -/
def jpgExtU : PyStr := ".JPG".data

/-- Lowercase extensions used for classification in the router and mapper. -/
def jpgExtL : PyStr := ".jpg".data

/-- Lowercase video extension. -/
def mp4ExtL : PyStr := ".mp4".data

/-- Lowercase data-log extension. -/
def csvExtL : PyStr := ".csv".data

/-- Uppercase data-log extension given by the router and matched by the
mapper's case-sensitive glob. -/
def csvExtUData : PyStr := ".CSV".data

/-- Thumbnail marker checked by the output mapper. -/
def thumbMarker : PyStr := "_THUMB".data

/-- Overview marker checked by the output mapper. -/
def overviewMarker : PyStr := "overview".data

/-- The fallback filename returned when EXIF extraction fails. -/
def defaultJpgName : PyStr := "default_filename.JPG".data

/-- The sentinel timestamp returned on MP4 extraction failure. -/
def mp4Sentinel : PyStr := "00000000T000000Z".data

/-- The standardized still name, as built by the f-string in
`get_image_output_file_name`:
platform `_SCP_` voyage-prefix `_` voyage-suffix `_` deployment-token `_`
compact-timestamp `_` four-digit-index `.JPG`. -/
def mkImageName (platform v0 v1 dep : PyStr) (ts : Timestamp) (index : Int) : PyStr :=
  platform ++ scpSeg ++ v0 ++ sepU ++ v1 ++ sepU ++ dep ++ sepU ++
    formatCompact ts ++ sepU ++ pyFormat04d index ++ jpgExtU

/-- The standardized video name built in `_process`:
`f"{platform_id}_{voyage_id}_{deployment_id}_{iso_timestamp}.mp4"`. -/
def mkMp4Name (platform voyage dep iso : PyStr) : PyStr :=
  platform ++ sepU ++ voyage ++ sepU ++ dep ++ sepU ++ iso ++ ".mp4".data

/-- The standardized data-log name built in `_process`:
`f"{platform_id}_{voyage_id}_{deployment_id}.CSV"`. -/
def mkCsvName (platform voyage dep : PyStr) : PyStr :=
  platform ++ sepU ++ voyage ++ sepU ++ dep ++ ".CSV".data

/-! ## External-world inputs and effects -/

/-- Result of `PIL.Image.open` plus `_getexif()` on a `.jpg` file:
`osError` models `Image.open` raising `OSError` (file not decodable);
`opened none` models a falsy EXIF result (`_getexif()` returned `None`);
`opened (some none)` a truthy EXIF dict without a `DateTime` tag; and
`opened (some (some s))` a `DateTime` tag with raw value `s`. -/
inductive ImgOpen where
  | osError : ImgOpen
  | opened : Option (Option PyStr) → ImgOpen
deriving DecidableEq

/-- Result of the ffprobe subprocess call in `get_mp4_timestamp`:
`err` models any exception raised while running it (caught by the blanket
`except Exception`); `ok stdout` the captured standard output. -/
inductive FfprobeRes where
  | err : FfprobeRes
  | ok : PyStr → FfprobeRes
deriving DecidableEq

/-- Logging calls in the pipeline, with the path (and destination where
logged) they mention. -/
inductive LogEvent where
  | unreadableImage : PyStr → LogEvent
  | noExifData : PyStr → LogEvent
  | noExifDateTime : PyStr → LogEvent
  | renamedImage : PyStr → PyStr → LogEvent
  | renamedVideo : PyStr → PyStr → LogEvent
  | renamedCsv : PyStr → PyStr → LogEvent
  | errorProcessing : PyStr → LogEvent
  | noCreationTime : PyStr → LogEvent
  | mp4ExtractError : PyStr → LogEvent
deriving DecidableEq

/-- Python exceptions that can escape the modelled functions. -/
inductive PyExc where
  | valueError : PyExc
  | indexError : PyExc
deriving DecidableEq

/-! ## Timestamp extractor and filename standardizer -/

/-- Model of `get_image_output_file_name(file_path)`.  `platform` and
`voyage` are `self.config.get("platform_id", "UNKNOWN")` and
`self.config.get("voyage_id", "UNK_UNK")` with defaults already applied;
`path` is `str(file_path)`; `res` is the outcome of opening the image.
Inside the function's `try`, in source order: `Image.open` (its `OSError`
is caught and yields the default name), `_getexif()`,
`int(str(file_path).split("_")[-1].split(".")[0])` (an unparsable token
raises `ValueError`, which the `except OSError` clause does not catch),
the EXIF truthiness and `DateTime` checks (absence logs and yields the
default name), `strptime` of the tag (failure raises `ValueError`),
`str(file_path).split("/")[-3].split("_")[2]` (a short path raises
`IndexError`), and `voyage_parts[1]` in the f-string (a voyage id without
an underscore raises `IndexError`). -/
def getImageOutputFileName (platform voyage path : PyStr) (res : ImgOpen) :
    Except PyExc (PyStr × List LogEvent) :=
  match res with
  | .osError => .ok (defaultJpgName, [.unreadableImage path])
  | .opened exif =>
    match pyInt (pyHeadD (pySplit '.' (pyLast (pySplit '_' path)))) with
    | none => .error .valueError
    | some index =>
      match exif with
      | none => .ok (defaultJpgName, [.noExifData path])
      | some none => .ok (defaultJpgName, [.noExifDateTime path])
      | some (some dateStr) =>
        match parseExifDateTime dateStr with
        | none => .error .valueError
        | some ts =>
          match pyIdxNeg (pySplit '/' path) 3 with
          | none => .error .indexError
          | some comp =>
            match pyIdx (pySplit '_' comp) 2 with
            | none => .error .indexError
            | some dep =>
              match pySplit '_' voyage with
              | v0 :: v1 :: _ => .ok (mkImageName platform v0 v1 dep ts index, [])
              | _ => .error .indexError

/-- Model of `get_mp4_timestamp(file_path)`: on any subprocess exception the
sentinel is returned; a blank (stripped-empty) stdout logs the no-creation-time
failure and returns the sentinel; otherwise the creation time is parsed and
re-formatted compactly, a parse failure being caught by the blanket
`except Exception` and again yielding the sentinel.  Never raises. -/
def getMp4Timestamp (path : PyStr) (res : FfprobeRes) : PyStr × List LogEvent :=
  match res with
  | .err => (mp4Sentinel, [.mp4ExtractError path])
  | .ok stdout =>
    let t := pyStrip stdout
    if t.isEmpty then (mp4Sentinel, [.noCreationTime path])
    else
      match parseCreationTime t with
      | some ts => (formatCompact ts, [])
      | none => (mp4Sentinel, [.mp4ExtractError path])

/-! ## File router (`_process`) -/

/-- One directory entry of the flat working directory together with the
external-world outcomes that `_process` would observe for it. -/
structure SrcFile where
  /-- Full path string `str(file)`. -/
  path : PyStr
  /-- Whether the entry is a regular file (`file.is_file()`). -/
  isFile : Bool
  /-- Outcome of `Image.open` + `_getexif()` (consulted for `.jpg` only). -/
  openRes : ImgOpen
  /-- Outcome of the ffprobe call (consulted for `.mp4` only). -/
  ffprobe : FfprobeRes
  /-- Whether `file.rename(...)` succeeds; `false` models it raising
  `OSError`/`FileNotFoundError`, which `_process` catches and logs. -/
  renameOk : Bool
deriving DecidableEq

/-- A routed file: its source path and its destination path relative to the
working directory (`images/...`, `video/...` or `data/...`). -/
structure Routed where
  src : PyStr
  dest : PyStr
deriving DecidableEq

/-- Model of one iteration of the `_process` loop body for entry `f`
(configuration `platform`/`voyage` as read from `self.config`).
Non-files are skipped; `deployment_id = str(file).split("/")[-3].split("_")[2]`
is computed before the `try` block, so its `IndexError` escapes; inside the
`try`, `.jpg` entries are renamed into `images/` under the standardized name
(an uncaught `ValueError`/`IndexError` from `get_image_output_file_name`
escapes), `.mp4` into `video/` and `.csv` into `data/`; a rename failure is
caught, logged, and the file skipped; other extensions are untouched. -/
def processFile (platform voyage : PyStr) (f : SrcFile) :
    Except PyExc (Option Routed × List LogEvent) :=
  if !f.isFile then .ok (none, [])
  else
    match pyIdxNeg (pySplit '/' f.path) 3 with
    | none => .error .indexError
    | some comp =>
      match pyIdx (pySplit '_' comp) 2 with
      | none => .error .indexError
      | some dep =>
        let ext := pyLower (pySuffix (pyName f.path))
        if ext = jpgExtL then
          match getImageOutputFileName platform voyage f.path f.openRes with
          | .error e => .error e
          | .ok (name, logs) =>
            let dest := "images/".data ++ name
            if f.renameOk then .ok (some ⟨f.path, dest⟩, logs ++ [.renamedImage f.path dest])
            else .ok (none, logs ++ [.errorProcessing f.path])
        else if ext = mp4ExtL then
          let (iso, logs) := getMp4Timestamp f.path f.ffprobe
          let dest := "video/".data ++ mkMp4Name platform voyage dep iso
          if f.renameOk then .ok (some ⟨f.path, dest⟩, logs ++ [.renamedVideo f.path dest])
          else .ok (none, logs ++ [.errorProcessing f.path])
        else if ext = csvExtL then
          let dest := "data/".data ++ mkCsvName platform voyage dep
          if f.renameOk then .ok (some ⟨f.path, dest⟩, [.renamedCsv f.path dest])
          else .ok (none, [.errorProcessing f.path])
        else .ok (none, [])

/-- Model of the `_process` routing loop over the directory listing: entries
are handled in order, a skipped entry contributes nothing, and an uncaught
exception aborts the batch (thumbnailing and the overview mosaic, which
follow the loop and only consume successfully routed stills, are outside the
claims modelled here). -/
def processBatch (platform voyage : PyStr) : List SrcFile → Except PyExc (List Routed × List LogEvent)
  | [] => .ok ([], [])
  | f :: rest =>
    match processFile platform voyage f with
    | .error e => .error e
    | .ok (r, logs) =>
      match processBatch platform voyage rest with
      | .error e => .error e
      | .ok (rs, logss) => .ok (r.toList ++ rs, logs ++ logss)

/-- The routed file (if any) an entry contributes when its processing does
not raise. -/
def routeOf (platform voyage : PyStr) (f : SrcFile) : Option Routed :=
  match processFile platform voyage f with
  | .ok (r, _) => r
  | .error _ => none

/-- The log events an entry contributes when its processing does not raise. -/
def logsOf (platform voyage : PyStr) (f : SrcFile) : List LogEvent :=
  match processFile platform voyage f with
  | .ok (_, logs) => logs
  | .error _ => []

/-- Whether an `Except` is a success. -/
def isOkE : Except ε α → Bool
  | .ok _ => true
  | .error _ => false


/-- Whether `pat` is a prefix of `s` (elementwise comparison). -/
def pyStartsWith : PyStr → PyStr → Bool
  | [], _ => true
  | _ :: _, [] => false
  | a :: ps, b :: l => a == b && pyStartsWith ps l

/-- Python's substring test `pat in s`. -/
def pyContains (pat : PyStr) : PyStr → Bool
  | [] => pat.isEmpty
  | c :: rest => pyStartsWith pat (c :: rest) || pyContains pat rest

/-- Whether `pat` is a suffix of `s` (used for the `*.CSV` glob). -/
def pyEndsWith (pat s : PyStr) : Bool := pyStartsWith pat.reverse s.reverse

/-! ## Telemetry table and output mapper (`_package`) -/

/-- One telemetry row after `_package`'s normalization: its `FinalTime`
floored to whole seconds, and its remaining cells verbatim (the fields the
`ImageData`/ancillary dict are populated from; their numeric conversion is
outside the claims modelled here). -/
structure TeleRow where
  finalTime : Timestamp
  cells : List PyStr
deriving DecidableEq

/-- One telemetry row as parsed by
`pd.to_datetime(df["FinalTime"], format="%Y-%m-%d %H:%M:%S.%f")`, before
`.dt.floor("s")`: the whole-second part plus the sub-second microseconds
that flooring discards. -/
structure RawRow where
  finalTime : Timestamp
  micros : Nat
  cells : List PyStr
deriving DecidableEq

/-- The `.dt.floor("s")` normalization: drop the sub-second part. -/
def floorRow (r : RawRow) : TeleRow := ⟨r.finalTime, r.cells⟩

/-- One entry of `data_dir.rglob("*")`: its path relative to the data
directory and whether it is a regular file. -/
structure PkgEntry where
  rel : PyStr
  isFile : Bool
deriving DecidableEq

/-- Failures that abort `_package`: `missingTelemetryFile` models the
`StopIteration` escaping from `next((data_dir / "data").glob("*.CSV"))`
when no telemetry log is present (the spec's typed MissingTelemetryFile);
`indexError` a failing positional lookup; `valueError` a failing
`pd.to_datetime` parse or `idxmin` over an empty table. -/
inductive PkgExc where
  | missingTelemetryFile : PkgExc
  | indexError : PkgExc
  | valueError : PkgExc
deriving DecidableEq

/-- An output record: the destination path and, for correlated media, the
attached metadata, modelled as the parsed filename timestamp
(`image_datetime`) together with the matched telemetry row (from which the
structured fields and the verbatim ancillary dict are populated). -/
structure PkgRecord where
  dest : PyStr
  meta : Option (Timestamp × TeleRow)
deriving DecidableEq

/-- Smallest value of a list. -/
def listMin : List Nat → Option Nat
  | [] => none
  | x :: rest =>
    match listMin rest with
    | none => some x
    | some m => some (min x m)

/-- Index of the first occurrence of the minimum of a list — the semantics of
`pandas` `Series.idxmin` over a default range index (`none` models the
`ValueError` it raises on an empty series). -/
def idxminIdx : List Nat → Option Nat
  | [] => none
  | x :: rest =>
    match listMin rest with
    | none => some 0
    | some m => if x ≤ m then some 0 else (idxminIdx rest).map (· + 1)

/-- Absolute difference in seconds between a row's floored `FinalTime` and
the target timestamp (`abs(sensor_data_df["FinalTime"] - target_datetime)`). -/
def rowDiff (target : Timestamp) (r : TeleRow) : Nat :=
  (toSec r.finalTime - toSec target).natAbs

/-- Index of the nearest telemetry row for a video
(`time_diffs.idxmin()`): first occurrence of the minimal absolute
difference. -/
def videoMatchIdx (rows : List TeleRow) (target : Timestamp) : Option Nat :=
  idxminIdx (rows.map (rowDiff target))

/-- The nearest telemetry row itself (`sensor_data_df.loc[time_diffs.idxmin()]`). -/
def videoMatchRow (rows : List TeleRow) (target : Timestamp) : Option TeleRow :=
  (videoMatchIdx rows target).bind rows.get?

/-- Field `i` of the `'_'`-split stem of a standardized name, as the output
mapper reads it (`file_path.stem.split("_")[i]`); `none` models the
`IndexError` on a name with too few fields. -/
def stemField (name : PyStr) (i : Nat) : Option PyStr :=
  pyIdx (pySplit '_' (pyStem name)) i

/-- The output mapper's media guard: a `.jpg`/`.mp4` suffix (lowercased) and
neither the thumbnail nor the overview marker in the file name. -/
def pkgIsMediaTarget (name sfx : PyStr) : Bool :=
  (sfx == jpgExtL || sfx == mp4ExtL) &&
    !(pyContains thumbMarker name) && !(pyContains overviewMarker name)

/-- Model of one iteration of the `_package` loop body for entry `e`, against
the already-loaded floored telemetry `rows`.  In source order:
`deployment_id = str(data_dir).split("/")[-2]` (its `IndexError` escapes);
the destination is `deployment_id / file_path.relative_to(data_dir)`;
media files passing the guard have the timestamp field of their stem parsed
(`pd.to_datetime`, failure escaping as `ValueError`), stills are matched
exactly on the floored `FinalTime` (first matching row; an empty match adds
no record at all — note the `elif` is not reached in that case), videos take
the nearest row (`idxmin` raising on an empty table); every other regular
file is recorded without metadata; non-files are skipped. -/
def packageEntry (dataDir : PyStr) (rows : List TeleRow) (e : PkgEntry) :
    Except PkgExc (Option (PyStr × PkgRecord)) :=
  match pyIdxNeg (pySplit '/' dataDir) 2 with
  | none => .error .indexError
  | some dep =>
    let full := dataDir ++ '/' :: e.rel
    let out := dep ++ '/' :: e.rel
    let name := pyName full
    let sfx := pyLower (pySuffix name)
    if e.isFile && pkgIsMediaTarget name sfx then
      match stemField name (if sfx == jpgExtL then 5 else 4) with
      | none => .error .indexError
      | some iso =>
        match parseCompact iso with
        | none => .error .valueError
        | some target =>
          if sfx == jpgExtL then
            match rows.find? (fun r => r.finalTime == target) with
            | some row => .ok (some (full, ⟨out, some (target, row)⟩))
            | none => .ok none
          else
            match videoMatchRow rows target with
            | some row => .ok (some (full, ⟨out, some (target, row)⟩))
            | none => .error .valueError
    else if e.isFile then .ok (some (full, ⟨out, none⟩))
    else .ok none

/-- The record (if any) an entry contributes when its processing does not
raise. -/
def contribution (dataDir : PyStr) (rows : List TeleRow) (e : PkgEntry) :
    Option (PyStr × PkgRecord) :=
  match packageEntry dataDir rows e with
  | .ok r => r
  | .error _ => none

/-- The `_package` loop over all entries: records accumulate in a dict keyed
by source path (modelled as an association list in iteration order); an
uncaught exception aborts the batch. -/
def packageList (dataDir : PyStr) (rows : List TeleRow) :
    List PkgEntry → Except PkgExc (List (PyStr × PkgRecord))
  | [] => .ok []
  | e :: rest =>
    match packageEntry dataDir rows e with
    | .error ex => .error ex
    | .ok kv =>
      match packageList dataDir rows rest with
      | .error ex => .error ex
      | .ok m => .ok (kv.toList ++ m)

/-- Whether an entry is matched by `(data_dir / "data").glob("*.CSV")`: a
path of exactly two components whose first is `data` and whose second ends
in the (case-sensitive) `.CSV`. -/
def isDataCsvEntry (e : PkgEntry) : Bool :=
  match pySplit '/' e.rel with
  | [d, n] => d == "data".data && pyEndsWith csvExtUData n
  | _ => false

/-- Model of `_package(data_dir, ...)`: the telemetry CSV is located first
(`next(...)` raising when none is present — the spec's
MissingTelemetryFile), its parsed content `rawRows` is floored to whole
seconds, and the entry loop builds the data mapping. -/
def packageBatch (dataDir : PyStr) (entries : List PkgEntry) (rawRows : List RawRow) :
    Except PkgExc (List (PyStr × PkgRecord)) :=
  if entries.any isDataCsvEntry then
    packageList dataDir (rawRows.map floorRow) entries
  else .error .missingTelemetryFile

/-- A full deployment run: `_process` routes and thumbnails first, then
`_package` correlates and maps.  `files` is the flat working-directory
listing seen by `_process`; `entries` the recursive listing seen by
`_package` afterwards; `rawRows` the parsed content of the telemetry log it
finds.  The two phases share no state other than the file system, so the
pair records each phase's outcome. -/
def pipelineRun (platform voyage : PyStr) (files : List SrcFile)
    (dataDir : PyStr) (entries : List PkgEntry) (rawRows : List RawRow) :
    Except PyExc (List Routed × List LogEvent) × Except PkgExc (List (PyStr × PkgRecord)) :=
  (processBatch platform voyage files, packageBatch dataDir entries rawRows)

/-- Decidable equality for `Except`, so concrete runs of the model can be
checked by `decide`. -/
instance exceptDecEq {ε α : Type} [DecidableEq ε] [DecidableEq α] :
    DecidableEq (Except ε α) := fun x y =>
  match x, y with
  | .ok a, .ok b =>
    if h : a = b then .isTrue (congrArg Except.ok h)
    else .isFalse (fun he => h (Except.ok.inj he))
  | .error e, .error f =>
    if h : e = f then .isTrue (congrArg Except.error h)
    else .isFalse (fun he => h (Except.error.inj he))
  | .ok _, .error _ => .isFalse (fun he => Except.noConfusion he)
  | .error _, .ok _ => .isFalse (fun he => Except.noConfusion he)

/-! ## Concrete test fixtures

Configuration values from the pipeline config schema and small concrete
deployments used to evaluate the model. -/

def cfgPlatform : PyStr := "MRITC".data

def cfgVoyage : PyStr := "IN2018_V06".data

def voyPrefix : PyStr := "IN2018".data

def voySuffix : PyStr := "V06".data

def depTok : PyStr := "001".data

def depFull : PyStr := "IN2018_V06_001".data

def pkgDataDir : PyStr := "datasets/IN2018_V06_001/work".data

def c3Path : PyStr := "datasets/IN2018_V06_001/data/IMG_0001.JPG".data

def c3Exif : PyStr := "2018:11:25 10:15:30".data

def c3Expected : PyStr := "MRITC_SCP_IN2018_V06_001_20181125T101530Z_0001.JPG".data

def c3Ts : Timestamp := ⟨2018, 11, 25, 10, 15, 30⟩

def badTailPath : PyStr := "datasets/IN2018_V06_001/data/IMG_abc.JPG".data

def c2BadFile : SrcFile := ⟨badTailPath, true, .opened (some (some c3Exif)), .err, true⟩

def wUnreadablePath : PyStr := "datasets/IN2018_V06_001/data/IMG_0002.JPG".data

def wUnreadable : SrcFile := ⟨wUnreadablePath, true, .osError, .err, true⟩

def wNoExifPath : PyStr := "datasets/IN2018_V06_001/data/IMG_0003.JPG".data

def wNoExif : SrcFile := ⟨wNoExifPath, true, .opened none, .err, true⟩

def wCsvFailPath : PyStr := "datasets/IN2018_V06_001/data/log_01.csv".data

def wCsvFail : SrcFile := ⟨wCsvFailPath, true, .opened none, .err, false⟩

def defaultDest : PyStr := "images/default_filename.JPG".data

def c2wFiles : List SrcFile := [wUnreadable, wNoExif, wCsvFail]

def c2wRouted : List Routed := [⟨wUnreadablePath, defaultDest⟩, ⟨wNoExifPath, defaultDest⟩]

def c2wLogs : List LogEvent :=
  [.unreadableImage wUnreadablePath, .renamedImage wUnreadablePath defaultDest,
    .noExifData wNoExifPath, .renamedImage wNoExifPath defaultDest,
    .errorProcessing wCsvFailPath]

def csvAPath : PyStr := "datasets/IN2018_V06_001/data/sensor_a.csv".data

def csvBPath : PyStr := "datasets/IN2018_V06_001/data/sensor_b.csv".data

def csvA : SrcFile := ⟨csvAPath, true, .opened none, .err, true⟩

def csvB : SrcFile := ⟨csvBPath, true, .opened none, .err, true⟩

def csvDest : PyStr := "data/MRITC_IN2018_V06_001.CSV".data

def thumbFilePath : PyStr := "datasets/IN2018_V06_001/data/IMG_THUMB_0002.jpg".data

def thumbFile : SrcFile := ⟨thumbFilePath, true, .opened (some (some c3Exif)), .err, true⟩

def thumbRoutedDest : PyStr := "images/MRITC_SCP_IN2018_V06_001_20181125T101530Z_0002.JPG".data

def c10Path : PyStr := "datasets/IN2018_V06_001/data/IMG_final.JPG".data

def c10File : SrcFile := ⟨c10Path, true, .osError, .err, true⟩

def mp4Path : PyStr := "datasets/IN2018_V06_001/data/GOPR0001.mp4".data

def c4Creation : PyStr := "2018-11-25T10:16:02.500000Z".data

def c4Iso : PyStr := "20181125T101602Z".data

def c4Target : Timestamp := ⟨2018, 11, 25, 10, 16, 2⟩

def c4Row0 : TeleRow := ⟨⟨2018, 11, 25, 10, 16, 0⟩, []⟩

def c4Row1 : TeleRow := ⟨⟨2018, 11, 25, 10, 16, 5⟩, []⟩

def c4Rows : List TeleRow := [c4Row0, c4Row1]

def c4EntryRel : PyStr := "video/MRITC_IN2018_V06_001_20181125T101602Z.mp4".data

def c4Entry : PkgEntry := ⟨c4EntryRel, true⟩

def c4Full : PyStr := "datasets/IN2018_V06_001/work/video/MRITC_IN2018_V06_001_20181125T101602Z.mp4".data

def c4Out : PyStr := "IN2018_V06_001/video/MRITC_IN2018_V06_001_20181125T101602Z.mp4".data

def c5Blank : PyStr := "  ".data

def c5Garbage : PyStr := "garbage".data

def c1JpgRel : PyStr := "images/MRITC_SCP_IN2018_V06_001_20181125T101530Z_0001.JPG".data

def c1JpgEntry : PkgEntry := ⟨c1JpgRel, true⟩

def c1CsvRel : PyStr := "data/MRITC_IN2018_V06_001.CSV".data

def c1CsvEntry : PkgEntry := ⟨c1CsvRel, true⟩

def c1DirEntry : PkgEntry := ⟨"thumbnails".data, false⟩

def c1ThumbRel : PyStr :=
  "thumbnails/MRITC_SCP_IN2018_V06_001_20181125T101530Z_0001_THUMB.JPG".data

def c1ThumbEntry : PkgEntry := ⟨c1ThumbRel, true⟩

def c1Entries : List PkgEntry := [c1JpgEntry, c1CsvEntry, c1DirEntry]

def c1NoMatchRows : List RawRow := [⟨⟨2018, 11, 25, 10, 20, 0⟩, 0, []⟩]

def c1JpgFull : PyStr :=
  "datasets/IN2018_V06_001/work/images/MRITC_SCP_IN2018_V06_001_20181125T101530Z_0001.JPG".data

def c1JpgOut : PyStr :=
  "IN2018_V06_001/images/MRITC_SCP_IN2018_V06_001_20181125T101530Z_0001.JPG".data

def c1CsvFull : PyStr := "datasets/IN2018_V06_001/work/data/MRITC_IN2018_V06_001.CSV".data

def c1CsvOut : PyStr := "IN2018_V06_001/data/MRITC_IN2018_V06_001.CSV".data

def c1ThumbFull : PyStr :=
  "datasets/IN2018_V06_001/work/thumbnails/MRITC_SCP_IN2018_V06_001_20181125T101530Z_0001_THUMB.JPG".data

def c1ThumbOut : PyStr :=
  "IN2018_V06_001/thumbnails/MRITC_SCP_IN2018_V06_001_20181125T101530Z_0001_THUMB.JPG".data

def c1wEntries : List PkgEntry := [c1JpgEntry, c1ThumbEntry, c1CsvEntry, c1DirEntry]

def c1wRawRows : List RawRow := [⟨⟨2018, 11, 25, 10, 15, 30⟩, 500000, []⟩]

def c1wRow : TeleRow := ⟨⟨2018, 11, 25, 10, 15, 30⟩, []⟩

def c1wExpected : List (PyStr × PkgRecord) :=
  [(c1JpgFull, ⟨c1JpgOut, some (c3Ts, c1wRow)⟩),
    (c1ThumbFull, ⟨c1ThumbOut, none⟩),
    (c1CsvFull, ⟨c1CsvOut, none⟩)]

def c9Files : List SrcFile := [wNoExif]

def c9Entries : List PkgEntry := [c1JpgEntry]

def c9Routed : Routed := ⟨wNoExifPath, defaultDest⟩

def c9Logs : List LogEvent := [.noExifData wNoExifPath, .renamedImage wNoExifPath defaultDest]

def c10Dest : PyStr := "images/default_filename.JPG".data

/-! ## Lemmas about the Python string model -/

theorem pySplit_ne_nil (sep : Char) (l : PyStr) : pySplit sep l ≠ [] := by
  cases l with
  | nil => simp [pySplit]
  | cons c rest =>
    simp only [pySplit]
    split
    · simp
    · split <;> simp

theorem pySplit_no_sep {sep : Char} {l : PyStr} (h : sep ∉ l) : pySplit sep l = [l] := by
  induction l with
  | nil => rfl
  | cons c rest ih =>
    have hc : ¬ c = sep := fun e => h (by simp [e])
    have hr : sep ∉ rest := fun m => h (List.mem_cons_of_mem _ m)
    simp [pySplit, if_neg hc, ih hr]

theorem pySplit_append {sep : Char} {a : PyStr} (b : PyStr) (h : sep ∉ a) :
    pySplit sep (a ++ sep :: b) = a :: pySplit sep b := by
  induction a with
  | nil => simp [pySplit]
  | cons c a ih =>
    have hc : ¬ c = sep := fun e => h (by simp [e])
    have ha : sep ∉ a := fun m => h (List.mem_cons_of_mem _ m)
    simp [pySplit, if_neg hc, ih ha]

theorem not_sep_of_mem_pySplit {sep : Char} {l t : PyStr}
    (h : t ∈ pySplit sep l) : sep ∉ t := by
  induction l generalizing t with
  | nil =>
    simp [pySplit] at h
    simp [h]
  | cons c rest ih =>
    by_cases hc : c = sep
    · subst hc
      simp [pySplit] at h
      rcases h with h | h
      · simp [h]
      · exact ih h
    · cases hr : pySplit sep rest with
      | nil => exact absurd hr (pySplit_ne_nil sep rest)
      | cons t0 ts =>
        simp [pySplit, hc, hr] at h
        rcases h with h | h
        · subst h
          intro hm
          rcases List.mem_cons.mp hm with h1 | h1
          · exact hc h1.symm
          · exact ih (hr ▸ List.mem_cons_self t0 ts) h1
        · exact ih (hr ▸ List.mem_cons_of_mem t0 h)

theorem lastDotFrom_of_not_mem {l : PyStr} (h : '.' ∉ l) : lastDotFrom l = none := by
  induction l with
  | nil => rfl
  | cons c rest ih =>
    have hc : ¬ c = '.' := fun e => h (by simp [e])
    have hr : '.' ∉ rest := fun m => h (List.mem_cons_of_mem _ m)
    simp [lastDotFrom, ih hr, if_neg hc]

theorem lastDotFrom_append_dot (xs t : PyStr) (h : '.' ∉ t) :
    lastDotFrom (xs ++ '.' :: t) = some xs.length := by
  induction xs with
  | nil => simp [lastDotFrom, lastDotFrom_of_not_mem h]
  | cons c xs ih => simp [lastDotFrom, ih]

theorem pyStem_append_dot_ext {xs : PyStr} (hx : xs ≠ []) (t : PyStr) (h : '.' ∉ t) :
    pyStem (xs ++ '.' :: t) = xs := by
  have hl := lastDotFrom_append_dot xs t h
  have hn : ¬ xs.length = 0 := fun e => hx (List.eq_nil_of_length_eq_zero e)
  simp [pyStem, hl, if_neg hn, hx, List.take_left]

theorem pySuffix_append_dot_ext {xs : PyStr} (hx : xs ≠ []) (t : PyStr) (h : '.' ∉ t) :
    pySuffix (xs ++ '.' :: t) = '.' :: t := by
  have hl := lastDotFrom_append_dot xs t h
  have hn : ¬ xs.length = 0 := fun e => hx (List.eq_nil_of_length_eq_zero e)
  simp [pySuffix, hl, if_neg hn, hx, List.drop_left]

/-! ## Lemmas about digits, formatting and parsing -/

theorem digitChar_spec {n : Nat} (h : n < 10) :
    (Nat.digitChar n).isDigit = true ∧ c2n (Nat.digitChar n) = n ∧
      Nat.digitChar n ≠ '_' ∧ Nat.digitChar n ≠ '.' ∧ Nat.digitChar n ≠ '/' ∧
      (Nat.digitChar n).isWhitespace = false := by
  interval_cases n <;> exact ⟨by decide, by decide, by decide, by decide, by decide, by decide⟩

theorem rd2_pad2 {x : Nat} (h : x < 100) :
    rd2 (Nat.digitChar (x / 10 % 10)) (Nat.digitChar (x % 10)) = some x := by
  have h1 : x / 10 % 10 < 10 := Nat.mod_lt _ (by norm_num)
  have h2 : x % 10 < 10 := Nat.mod_lt _ (by norm_num)
  obtain ⟨d1, v1, -⟩ := digitChar_spec h1
  obtain ⟨d2, v2, -⟩ := digitChar_spec h2
  simp only [rd2, d1, d2, Bool.and_self, if_pos, v1, v2]
  have : 10 * (x / 10 % 10) + x % 10 = x := by omega
  simp [this]

theorem rd4_pad4 {x : Nat} (h : x < 10000) :
    rd4 (Nat.digitChar (x / 1000 % 10)) (Nat.digitChar (x / 100 % 10))
      (Nat.digitChar (x / 10 % 10)) (Nat.digitChar (x % 10)) = some x := by
  have h1 : x / 1000 % 10 < 10 := Nat.mod_lt _ (by norm_num)
  have h2 : x / 100 % 10 < 10 := Nat.mod_lt _ (by norm_num)
  have h3 : x / 10 % 10 < 10 := Nat.mod_lt _ (by norm_num)
  have h4 : x % 10 < 10 := Nat.mod_lt _ (by norm_num)
  obtain ⟨d1, v1, -⟩ := digitChar_spec h1
  obtain ⟨d2, v2, -⟩ := digitChar_spec h2
  obtain ⟨d3, v3, -⟩ := digitChar_spec h3
  obtain ⟨d4, v4, -⟩ := digitChar_spec h4
  simp only [rd4, d1, d2, d3, d4, Bool.and_self, if_pos, v1, v2, v3, v4]
  have : 1000 * (x / 1000 % 10) + 100 * (x / 100 % 10) + 10 * (x / 10 % 10) + x % 10 = x := by
    omega
  simp [this]

theorem daysInMonth_le (y m : Nat) : daysInMonth y m ≤ 31 := by
  unfold daysInMonth
  split
  · split <;> omega
  · split <;> omega

theorem tsValid_bounds {y mo d h mi s : Nat} (hv : tsValid y mo d h mi s = true) :
    y < 10000 ∧ mo < 100 ∧ d < 100 ∧ h < 100 ∧ mi < 100 ∧ s < 100 := by
  have hm := daysInMonth_le y mo
  simp only [tsValid, Bool.and_eq_true, decide_eq_true_eq] at hv
  omega

theorem parseCompact_formatCompact {t : Timestamp} (h : t.Valid) :
    parseCompact (formatCompact t) = some t := by
  obtain ⟨y, mo, d, hh, mi, s⟩ := t
  have hv : tsValid y mo d hh mi s = true := h
  obtain ⟨b1, b2, b3, b4, b5, b6⟩ := tsValid_bounds hv
  simp only [formatCompact, pad4, pad2, List.cons_append, List.nil_append]
  simp only [parseCompact, rd4_pad4 b1, rd2_pad2 b2, rd2_pad2 b3, rd2_pad2 b4,
    rd2_pad2 b5, rd2_pad2 b6]
  simp [mkValidTs, hv]

theorem digitsToNat_append_one (l : PyStr) (c : Char) :
    digitsToNat (l ++ [c]) = 10 * digitsToNat l + c2n c := by
  simp [digitsToNat, List.foldl_append]

theorem natToDigitsAux_spec (fuel : Nat) : ∀ n, n < fuel →
    (∀ c ∈ natToDigitsAux fuel n, c.isDigit = true) ∧
      digitsToNat (natToDigitsAux fuel n) = n ∧ natToDigitsAux fuel n ≠ [] := by
  induction fuel with
  | zero => intro n h; omega
  | succ fuel ih =>
    intro n h
    by_cases h10 : n < 10
    · obtain ⟨d, v, -⟩ := digitChar_spec h10
      refine ⟨?_, ?_, by simp [natToDigitsAux, h10]⟩
      · intro c hc
        simp [natToDigitsAux, h10] at hc
        subst hc
        exact d
      · simp [natToDigitsAux, h10, digitsToNat, v]
    · have hrec : n / 10 < fuel := by omega
      obtain ⟨hd, hv, hne⟩ := ih (n / 10) hrec
      have h4 : n % 10 < 10 := Nat.mod_lt _ (by norm_num)
      obtain ⟨d, v, -⟩ := digitChar_spec h4
      refine ⟨?_, ?_, ?_⟩
      · intro c hc
        simp only [natToDigitsAux, if_neg h10, List.mem_append, List.mem_singleton] at hc
        rcases hc with hc | hc
        · exact hd c hc
        · subst hc
          exact d
      · simp only [natToDigitsAux, if_neg h10, digitsToNat_append_one, hv, v]
        omega
      · simp [natToDigitsAux, h10]

theorem natToDigits_spec (n : Nat) :
    (∀ c ∈ natToDigits n, c.isDigit = true) ∧
      digitsToNat (natToDigits n) = n ∧ natToDigits n ≠ [] :=
  natToDigitsAux_spec (n + 1) n (Nat.lt_succ_self n)

theorem digitsToNat_replicate_zero (k : Nat) (ds : PyStr) :
    digitsToNat (List.replicate k '0' ++ ds) = digitsToNat ds := by
  induction k with
  | zero => simp
  | succ k ih =>
    have he : List.replicate (k + 1) '0' ++ ds = '0' :: (List.replicate k '0' ++ ds) := by
      simp [List.replicate_succ]
    rw [he]
    show List.foldl (fun a c => 10 * a + c2n c) (10 * 0 + c2n '0') (List.replicate k '0' ++ ds) =
      digitsToNat ds
    have h0 : 10 * 0 + c2n '0' = 0 := by decide
    rw [h0]
    exact ih

theorem digitsToNat_padLeft0 (w : Nat) (ds : PyStr) :
    digitsToNat (padLeft0 w ds) = digitsToNat ds :=
  digitsToNat_replicate_zero _ ds

theorem padLeft0_digits {ds : PyStr} (w : Nat) (h : ∀ c ∈ ds, c.isDigit = true) :
    ∀ c ∈ padLeft0 w ds, c.isDigit = true := by
  intro c hc
  simp only [padLeft0, List.mem_append, List.mem_replicate] at hc
  rcases hc with hc | hc
  · rw [hc.2]
    decide
  · exact h c hc

theorem padLeft0_ne_nil {ds : PyStr} (w : Nat) (h : ds ≠ []) : padLeft0 w ds ≠ [] := by
  simp [padLeft0, h]

theorem not_ws_of_isDigit {c : Char} (h : c.isDigit = true) : c.isWhitespace = false := by
  by_contra hw
  simp only [Bool.not_eq_false] at hw
  simp only [Char.isWhitespace, Bool.or_eq_true, decide_eq_true_eq] at hw
  rcases hw with ((h1 | h1) | h1) | h1 <;> subst h1 <;> exact absurd h (by decide)

theorem isDigit_ne_sign {c : Char} (h : c.isDigit = true) : c ≠ '-' ∧ c ≠ '+' := by
  constructor <;> intro e <;> subst e <;> exact absurd h (by decide)

theorem pyStrip_eq_self {l : PyStr} (h : ∀ c ∈ l, c.isWhitespace = false) : pyStrip l = l := by
  have hall : ∀ m : PyStr, (∀ c ∈ m, c.isWhitespace = false) →
      m.dropWhile Char.isWhitespace = m := by
    intro m hm
    cases m with
    | nil => rfl
    | cons c rest => simp [List.dropWhile_cons, hm c (by simp)]
  have h1 := hall l h
  rw [pyStrip, h1]
  have h2 := hall l.reverse (fun c hc => h c (List.mem_reverse.mp hc))
  rw [h2, List.reverse_reverse]

theorem pyInt_of_digits {ds : PyStr} (hne : ds ≠ []) (hd : ∀ c ∈ ds, c.isDigit = true) :
    pyInt ds = some ((digitsToNat ds : Int)) := by
  have hstrip : pyStrip ds = ds := pyStrip_eq_self (fun c hc => not_ws_of_isDigit (hd c hc))
  unfold pyInt
  rw [hstrip]
  cases ds with
  | nil => exact absurd rfl hne
  | cons c rest =>
    obtain ⟨hc1, hc2⟩ := isDigit_ne_sign (hd c (by simp))
    have hall : (c :: rest).all Char.isDigit = true := by
      simp only [List.all_eq_true]
      exact hd
    split
    · rename_i ds2 heq
      rw [List.cons.injEq] at heq
      exact absurd heq.1 hc1
    · rename_i ds2 heq
      rw [List.cons.injEq] at heq
      exact absurd heq.1 hc2
    · simp [hall]

theorem pyInt_pyFormat04d (i : Int) : pyInt (pyFormat04d i) = some i := by
  obtain ⟨hdig, hval, hne⟩ := natToDigits_spec i.natAbs
  unfold pyFormat04d
  split
  · rename_i hneg
    have hd3 := padLeft0_digits 3 hdig
    have hne3 := padLeft0_ne_nil 3 hne
    have hstrip : pyStrip ('-' :: padLeft0 3 (natToDigits i.natAbs)) =
        '-' :: padLeft0 3 (natToDigits i.natAbs) := by
      apply pyStrip_eq_self
      intro c hc
      rcases List.mem_cons.mp hc with hc | hc
      · subst hc
        decide
      · exact not_ws_of_isDigit (hd3 c hc)
    unfold pyInt
    rw [hstrip]
    have hall : (padLeft0 3 (natToDigits i.natAbs)).all Char.isDigit = true := by
      simp only [List.all_eq_true]
      exact hd3
    simp [hne3, hall, digitsToNat_padLeft0, hval]
    rw [abs_of_neg hneg, neg_neg]
  · rename_i hneg
    have hval2 : digitsToNat (natToDigits i.toNat) = i.toNat :=
      (natToDigits_spec i.toNat).2.1
    have hd4 := padLeft0_digits 4 (natToDigits_spec i.toNat).1
    have hne4 := padLeft0_ne_nil 4 (natToDigits_spec i.toNat).2.2
    rw [pyInt_of_digits hne4 hd4, digitsToNat_padLeft0, hval2]
    congr 1
    omega

theorem formatCompact_chars {t : Timestamp} {c : Char} (h : c ∈ formatCompact t) :
    c.isDigit = true ∨ c = 'T' ∨ c = 'Z' := by
  have hdig : ∀ x : Nat, c = Nat.digitChar (x % 10) → c.isDigit = true := by
    intro x e
    subst e
    exact (digitChar_spec (Nat.mod_lt _ (by norm_num))).1
  simp only [formatCompact, pad4, pad2, List.append_assoc, List.cons_append, List.nil_append,
    List.mem_cons, List.mem_singleton] at h
  rcases h with h | h | h | h | h | h | h | h | h | h | h | h | h | h | h | h
  · exact Or.inl (hdig _ h)
  · exact Or.inl (hdig _ h)
  · exact Or.inl (hdig _ h)
  · exact Or.inl (hdig _ h)
  · exact Or.inl (hdig _ h)
  · exact Or.inl (hdig _ h)
  · exact Or.inl (hdig _ h)
  · exact Or.inl (hdig _ h)
  · exact Or.inr (Or.inl h)
  · exact Or.inl (hdig _ h)
  · exact Or.inl (hdig _ h)
  · exact Or.inl (hdig _ h)
  · exact Or.inl (hdig _ h)
  · exact Or.inl (hdig _ h)
  · exact Or.inl (hdig _ h)
  · rcases h with h | h
    · exact Or.inr (Or.inr h)
    · exact absurd h (List.not_mem_nil c)

theorem not_underscore_formatCompact (t : Timestamp) : '_' ∉ formatCompact t := by
  intro hm
  rcases formatCompact_chars hm with h | h | h
  · exact absurd h (by decide)
  · exact absurd h (by decide)
  · exact absurd h (by decide)

theorem pyFormat04d_chars {i : Int} {c : Char} (h : c ∈ pyFormat04d i) :
    c.isDigit = true ∨ c = '-' := by
  unfold pyFormat04d at h
  split at h
  · rcases List.mem_cons.mp h with h | h
    · exact Or.inr h
    · exact Or.inl (padLeft0_digits 3 (natToDigits_spec _).1 c h)
  · exact Or.inl (padLeft0_digits 4 (natToDigits_spec _).1 c h)

theorem not_underscore_pyFormat04d (i : Int) : '_' ∉ pyFormat04d i := by
  intro hm
  rcases pyFormat04d_chars hm with h | h
  · exact absurd h (by decide)
  · exact absurd h (by decide)

theorem valid_of_mkValidTs {y mo d h mi s : Nat} {t : Timestamp}
    (he : mkValidTs y mo d h mi s = some t) : t.Valid := by
  unfold mkValidTs at he
  split at he
  · injection he with he
    subst he
    assumption
  · cases he

theorem valid_of_parseExifDateTime {s : PyStr} {t : Timestamp}
    (h : parseExifDateTime s = some t) : t.Valid := by
  unfold parseExifDateTime at h
  split at h
  · split at h
    · exact valid_of_mkValidTs h
    · cases h
  · cases h

theorem valid_of_parseCompact {s : PyStr} {t : Timestamp}
    (h : parseCompact s = some t) : t.Valid := by
  unfold parseCompact at h
  split at h
  · split at h
    · exact valid_of_mkValidTs h
    · cases h
  · cases h

/-! ## Structure of the standardized still name -/

theorem jpgExtU_eq : jpgExtU = '.' :: ('J' :: 'P' :: 'G' :: []) := rfl

theorem mkImageName_stem (platform v0 v1 dep : PyStr) (ts : Timestamp) (idx : Int)
    (hpn : platform ≠ []) :
    pyStem (mkImageName platform v0 v1 dep ts idx) =
      platform ++ scpSeg ++ v0 ++ sepU ++ v1 ++ sepU ++ dep ++ sepU ++
        formatCompact ts ++ sepU ++ pyFormat04d idx := by
  have he : mkImageName platform v0 v1 dep ts idx =
      (platform ++ scpSeg ++ v0 ++ sepU ++ v1 ++ sepU ++ dep ++ sepU ++
        formatCompact ts ++ sepU ++ pyFormat04d idx) ++ '.' :: ('J' :: 'P' :: 'G' :: []) := by
    rw [mkImageName, jpgExtU_eq]
  rw [he]
  apply pyStem_append_dot_ext
  · simp [hpn]
  · decide

theorem mkImageName_split (platform v0 v1 dep : PyStr) (ts : Timestamp) (idx : Int)
    (hpn : platform ≠ []) (hp : '_' ∉ platform) (h0 : '_' ∉ v0) (h1 : '_' ∉ v1)
    (hd : '_' ∉ dep) :
    pySplit '_' (pyStem (mkImageName platform v0 v1 dep ts idx)) =
      [platform, scpTok, v0, v1, dep, formatCompact ts, pyFormat04d idx] := by
  rw [mkImageName_stem platform v0 v1 dep ts idx hpn]
  have e1 : platform ++ scpSeg ++ v0 ++ sepU ++ v1 ++ sepU ++ dep ++ sepU ++
      formatCompact ts ++ sepU ++ pyFormat04d idx =
      platform ++ '_' :: (scpTok ++ '_' :: (v0 ++ '_' :: (v1 ++ '_' :: (dep ++ '_' ::
        (formatCompact ts ++ '_' :: pyFormat04d idx))))) := by
    have hs1 : scpSeg = '_' :: (scpTok ++ ['_']) := rfl
    have hs2 : sepU = ['_'] := rfl
    rw [hs1, hs2]
    simp [List.append_assoc]
  rw [e1]
  have hscp : '_' ∉ scpTok := by decide
  rw [pySplit_append _ hp, pySplit_append _ hscp, pySplit_append _ h0, pySplit_append _ h1,
    pySplit_append _ hd, pySplit_append _ (not_underscore_formatCompact ts),
    pySplit_no_sep (not_underscore_pyFormat04d idx)]

theorem mkImageName_reparse (platform v0 v1 dep : PyStr) (ts : Timestamp) (idx : Int)
    (hpn : platform ≠ []) (hp : '_' ∉ platform) (h0 : '_' ∉ v0) (h1 : '_' ∉ v1)
    (hd : '_' ∉ dep) (hv : ts.Valid) :
    (stemField (mkImageName platform v0 v1 dep ts idx) 5).bind parseCompact = some ts ∧
      (stemField (mkImageName platform v0 v1 dep ts idx) 6).bind pyInt = some idx := by
  unfold stemField
  rw [mkImageName_split platform v0 v1 dep ts idx hpn hp h0 h1 hd]
  constructor
  · show parseCompact (formatCompact ts) = some ts
    exact parseCompact_formatCompact hv
  · show pyInt (pyFormat04d idx) = some idx
    exact pyInt_pyFormat04d idx

/-! ## Batch-level lemmas for the router and the output mapper -/

theorem processBatch_all_ok {platform voyage : PyStr} {files : List SrcFile}
    (h : ∀ f ∈ files, isOkE (processFile platform voyage f) = true) :
    processBatch platform voyage files =
      .ok (files.filterMap (routeOf platform voyage), files.flatMap (logsOf platform voyage)) := by
  induction files with
  | nil => rfl
  | cons f rest ih =>
    have hf := h f (by simp)
    have hr := ih (fun g hg => h g (List.mem_cons_of_mem _ hg))
    cases hpf : processFile platform voyage f with
    | error e =>
      rw [hpf] at hf
      cases hf
    | ok pr =>
      obtain ⟨r, logs⟩ := pr
      cases r with
      | none => simp [processBatch, hpf, hr, routeOf, logsOf, List.filterMap_cons]
      | some x => simp [processBatch, hpf, hr, routeOf, logsOf, List.filterMap_cons]

theorem packageList_all_ok {dataDir : PyStr} {rows : List TeleRow} {entries : List PkgEntry}
    (h : ∀ e ∈ entries, isOkE (packageEntry dataDir rows e) = true) :
    packageList dataDir rows entries =
      .ok (entries.filterMap (contribution dataDir rows)) := by
  induction entries with
  | nil => rfl
  | cons e rest ih =>
    have hf := h e (by simp)
    have hr := ih (fun g hg => h g (List.mem_cons_of_mem _ hg))
    cases hpe : packageEntry dataDir rows e with
    | error ex =>
      rw [hpe] at hf
      cases hf
    | ok kv =>
      cases kv with
      | none => simp [packageList, hpe, hr, contribution, List.filterMap_cons]
      | some x => simp [packageList, hpe, hr, contribution, List.filterMap_cons]

theorem packageEntry_key {dataDir : PyStr} {rows : List TeleRow} {e : PkgEntry}
    {kv : PyStr × PkgRecord} (h : packageEntry dataDir rows e = .ok (some kv)) :
    kv.1 = dataDir ++ '/' :: e.rel := by
  simp only [packageEntry] at h
  split at h
  · cases h
  · split at h
    · split at h
      · cases h
      · split at h
        · cases h
        · split at h
          · split at h
            · injection h with h
              injection h with h
              subst h
              rfl
            · cases h
          · split at h
            · injection h with h
              injection h with h
              subst h
              rfl
            · cases h
    · split at h
      · injection h with h
        injection h with h
        subst h
        rfl
      · cases h

theorem contribution_key {dataDir : PyStr} {rows : List TeleRow} {e : PkgEntry}
    {kv : PyStr × PkgRecord} (h : contribution dataDir rows e = some kv) :
    kv.1 = dataDir ++ '/' :: e.rel := by
  unfold contribution at h
  cases hpe : packageEntry dataDir rows e with
  | error ex =>
    rw [hpe] at h
    cases h
  | ok r =>
    rw [hpe] at h
    subst h
    exact packageEntry_key hpe

/-! ## Specification of first-occurrence argmin (`Series.idxmin`) -/

theorem listMin_cons (x : Nat) (rest : List Nat) :
    listMin (x :: rest) = match listMin rest with
      | none => some x
      | some m => some (min x m) := rfl

theorem idxminIdx_cons (x : Nat) (rest : List Nat) :
    idxminIdx (x :: rest) = match listMin rest with
      | none => some 0
      | some m => if x ≤ m then some 0 else (idxminIdx rest).map (· + 1) := rfl

theorem listMin_spec {l : List Nat} (h : l ≠ []) :
    ∃ m, listMin l = some m ∧ (∀ j < l.length, m ≤ l.getD j 0) ∧
      ∃ j < l.length, l.getD j 0 = m := by
  induction l with
  | nil => exact absurd rfl h
  | cons x rest ih =>
    cases rest with
    | nil =>
      refine ⟨x, by simp [listMin], ?_, 0, by simp, by simp⟩
      intro j hj
      have hj0 : j = 0 := by
        simp at hj
        omega
      subst hj0
      simp
    | cons y t =>
      obtain ⟨m, hm, hmin, jw, hjw, hjv⟩ := ih (by simp)
      refine ⟨min x m, by rw [listMin_cons, hm], ?_, ?_⟩
      · intro j hj
        cases j with
        | zero => simp [min_le_left]
        | succ j =>
          have hj2 := hmin j (by simpa using hj)
          simp only [List.getD_cons_succ]
          exact le_trans (min_le_right x m) hj2
      · by_cases hx : x ≤ m
        · exact ⟨0, by simp, by simp [min_eq_left hx]⟩
        · push_neg at hx
          refine ⟨jw + 1, by simpa using hjw, ?_⟩
          simp only [List.getD_cons_succ, hjv]
          rw [min_eq_right (le_of_lt hx)]

theorem idxminIdx_spec {l : List Nat} (h : l ≠ []) :
    ∃ i, idxminIdx l = some i ∧ i < l.length ∧
      (∀ j < l.length, l.getD i 0 ≤ l.getD j 0) ∧
      (∀ j < i, l.getD i 0 < l.getD j 0) := by
  induction l with
  | nil => exact absurd rfl h
  | cons x rest ih =>
    cases rest with
    | nil =>
      refine ⟨0, by simp [idxminIdx, listMin], by simp, ?_, by omega⟩
      intro j hj
      have hj0 : j = 0 := by
        simp at hj
        omega
      subst hj0
      simp
    | cons y t =>
      obtain ⟨m, hm, hmin, jw, hjw, hjv⟩ := listMin_spec (l := y :: t) (by simp)
      by_cases hx : x ≤ m
      · refine ⟨0, by rw [idxminIdx_cons, hm]; simp [hx], by simp, ?_, by omega⟩
        intro j hj
        cases j with
        | zero => simp
        | succ j =>
          have hj2 := hmin j (by simpa using hj)
          simp only [List.getD_cons_succ, List.getD_cons_zero]
          exact le_trans hx hj2
      · push_neg at hx
        obtain ⟨i, hi, hlen, hle, hlt⟩ := ih (by simp)
        have hattain : (y :: t).getD i 0 = m := by
          have h1 := hle jw hjw
          rw [hjv] at h1
          have h2 := hmin i hlen
          omega
        refine ⟨i + 1, ?_, by simpa using hlen, ?_, ?_⟩
        · rw [idxminIdx_cons, hm]
          simp [not_le.mpr hx, hi]
        · intro j hj
          cases j with
          | zero =>
            simp only [List.getD_cons_succ, List.getD_cons_zero, hattain]
            exact le_of_lt hx
          | succ j =>
            simp only [List.getD_cons_succ]
            exact hle j (by simpa using hj)
        · intro j hj
          cases j with
          | zero =>
            simp only [List.getD_cons_succ, List.getD_cons_zero, hattain]
            exact hx
          | succ j =>
            simp only [List.getD_cons_succ]
            exact hlt j (by omega)

/-! ## Claims -/

/-- C3: `get_image_output_file_name`, applied to the still `IMG_0001.JPG`
inside deployment directory `IN2018_V06_001`, whose EXIF DateTime tag is
`2018:11:25 10:15:30`, under configuration platform `MRITC` and voyage
`IN2018_V06`, returns exactly the string
`MRITC_SCP_IN2018_V06_001_20181125T101530Z_0001.JPG` (and logs nothing). -/
theorem c3_standardized_name_scenario :
    getImageOutputFileName cfgPlatform cfgVoyage c3Path (.opened (some (some c3Exif))) =
      .ok (c3Expected, []) := by
  decide

/-- C5: `get_mp4_timestamp` (modelled on the stripped ffprobe stdout)
returns the creation time re-formatted as the compact `YYYYMMDDTHHMMSSZ`
timestamp whenever the output is a non-blank creation-time field (a string
parsing under the creation-time format); on a blank output it fails with the
NoMetadata log (`noCreationTime`) and returns the epoch-start sentinel; on a
non-blank unparsable output, and on any subprocess error, it returns the
sentinel rather than propagating. -/
theorem c5_mp4_timestamp_policy (p s : PyStr) (ts : Timestamp) :
    (parseCreationTime (pyStrip s) = some ts →
      getMp4Timestamp p (.ok s) = (formatCompact ts, [])) ∧
    (pyStrip s = [] → getMp4Timestamp p (.ok s) = (mp4Sentinel, [.noCreationTime p])) ∧
    (parseCreationTime (pyStrip s) = none → pyStrip s ≠ [] →
      getMp4Timestamp p (.ok s) = (mp4Sentinel, [.mp4ExtractError p])) ∧
    getMp4Timestamp p .err = (mp4Sentinel, [.mp4ExtractError p]) := by
  refine ⟨?_, ?_, ?_, rfl⟩
  · intro h
    unfold getMp4Timestamp
    cases hps : pyStrip s with
    | nil =>
      rw [hps] at h
      cases h
    | cons c r =>
      rw [hps] at h
      simp [hps, h]
  · intro h
    unfold getMp4Timestamp
    simp [h]
  · intro h hne
    unfold getMp4Timestamp
    cases hps : pyStrip s with
    | nil => exact absurd hps hne
    | cons c r =>
      rw [hps] at h
      simp [hps, h]

/-- Witness for C5 at concrete inputs: the scenario creation time
`2018-11-25T10:16:02.500000Z` formats to `20181125T101602Z`; a blank output
yields the sentinel with the NoMetadata log; `garbage` and a subprocess
error yield the sentinel with the extraction-error log. -/
theorem c5_mp4_timestamp_policy_witness :
    getMp4Timestamp mp4Path (.ok c4Creation) = (c4Iso, []) ∧
    getMp4Timestamp mp4Path (.ok c5Blank) = (mp4Sentinel, [.noCreationTime mp4Path]) ∧
    getMp4Timestamp mp4Path (.ok c5Garbage) = (mp4Sentinel, [.mp4ExtractError mp4Path]) ∧
    getMp4Timestamp mp4Path .err = (mp4Sentinel, [.mp4ExtractError mp4Path]) := by
  refine ⟨?_, ?_, ?_, (c5_mp4_timestamp_policy mp4Path c5Blank c4Target).2.2.2⟩
  · have h := (c5_mp4_timestamp_policy mp4Path c4Creation c4Target).1 (by decide)
    rw [h]
    decide
  · exact (c5_mp4_timestamp_policy mp4Path c5Blank c4Target).2.1 (by decide)
  · exact (c5_mp4_timestamp_policy mp4Path c5Garbage c4Target).2.2.1 (by decide) (by decide)

/-- C2 counterexample: the claim says no exception escapes `_process` for any
input file set, but a readable still named `IMG_abc.JPG` (non-numeric
trailing token) makes `int(...)` raise `ValueError`, which the
`except (OSError, FileNotFoundError)` clause does not catch: the whole batch
aborts, here after a first file that processed fine. -/
theorem c2_counterexample_valueerror_escapes :
    processBatch cfgPlatform cfgVoyage [wNoExif, c2BadFile] = .error .valueError := by
  decide

/-- C2 (amended): when every individual file's processing raises no
exception — which holds for the failure kinds the code guards: an unreadable
image (`OSError` caught inside extraction), absent EXIF data or DateTime tag
(default name), and a failing rename (caught and logged with the offending
path) — the router completes the whole batch, each file contributing its
own routing outcome and log events independently, failed files being skipped;
but a `ValueError` from a non-numeric trailing filename token or a malformed
EXIF DateTime escapes the batch (see the counterexample). -/
theorem c2_amended_router_skip_continue (platform voyage : PyStr) (files : List SrcFile)
    (h : ∀ f ∈ files, isOkE (processFile platform voyage f) = true) :
    processBatch platform voyage files =
      .ok (files.filterMap (routeOf platform voyage), files.flatMap (logsOf platform voyage)) :=
  processBatch_all_ok h

/-- Witness for amended C2: a batch of an unreadable still, a still without
EXIF data, and a data log whose rename fails completes, routing the first
two under the default name and skipping the third with its failure logged. -/
theorem c2_amended_router_skip_continue_witness :
    processBatch cfgPlatform cfgVoyage c2wFiles = .ok (c2wRouted, c2wLogs) := by
  have h := c2_amended_router_skip_continue cfgPlatform cfgVoyage c2wFiles (by decide)
  rw [h]
  decide

/-- C7 counterexample: two distinct `.csv` source files in the same
deployment are both routed to the single destination
`data/MRITC_IN2018_V06_001.CSV` — destination paths are not pairwise
distinct across routed files. -/
theorem c7_counterexample_csv_collision :
    processBatch cfgPlatform cfgVoyage [csvA, csvB] =
      .ok ([⟨csvAPath, csvDest⟩, ⟨csvBPath, csvDest⟩],
        [.renamedCsv csvAPath csvDest, .renamedCsv csvBPath csvDest]) ∧
    csvAPath ≠ csvBPath := by
  decide

/-- C8 counterexample: `_process` has no thumbnail/overview exclusion: a
flat file whose name contains the `_THUMB` marker is classified as a still
and renamed into `images/` like any other `.jpg`. -/
theorem c8_counterexample_marker_routed :
    pyContains thumbMarker (pyName thumbFilePath) = true ∧
    processFile cfgPlatform cfgVoyage thumbFile =
      .ok (some ⟨thumbFilePath, thumbRoutedDest⟩,
        [.renamedImage thumbFilePath thumbRoutedDest]) := by
  decide

/-- C10 counterexample: for an unreadable `.jpg` with a non-numeric trailing
token, `Image.open` raises `OSError` before the sequence-index computation is
reached; the exception is caught inside `get_image_output_file_name`, which
returns the default name, so no `ValueError` is raised and `_process`
completes the file normally — refuting the claim's universal quantification
over all such `.jpg` files. -/
theorem c10_counterexample_unreadable_no_valueerror :
    pyInt (pyHeadD (pySplit '.' (pyLast (pySplit '_' c10Path)))) = none ∧
    pyLower (pySuffix (pyName c10Path)) = jpgExtL ∧
    getImageOutputFileName cfgPlatform cfgVoyage c10Path .osError =
      .ok (defaultJpgName, [.unreadableImage c10Path]) ∧
    processFile cfgPlatform cfgVoyage c10File =
      .ok (some ⟨c10Path, c10Dest⟩, [.unreadableImage c10Path, .renamedImage c10Path c10Dest]) := by
  decide

/-- C10 (amended): for every `.jpg` file that opens successfully as an image
and whose path, split on underscores, has a final token whose prefix before
the first dot is not parsable by `int(...)`, `get_image_output_file_name`
raises `ValueError` at the sequence-index computation; the
`except (OSError, FileNotFoundError)` clause in `_process` does not catch it,
so the exception propagates out of the batch, past any earlier files that
processed without raising. -/
theorem c10_amended_valueerror_propagates (platform voyage : PyStr) (f : SrcFile)
    (exif : Option (Option PyStr)) (comp dep : PyStr)
    (hopen : f.openRes = .opened exif)
    (hidx : pyInt (pyHeadD (pySplit '.' (pyLast (pySplit '_' f.path)))) = none)
    (hfile : f.isFile = true)
    (hext : pyLower (pySuffix (pyName f.path)) = jpgExtL)
    (hcomp : pyIdxNeg (pySplit '/' f.path) 3 = some comp)
    (hdep : pyIdx (pySplit '_' comp) 2 = some dep) :
    getImageOutputFileName platform voyage f.path f.openRes = .error .valueError ∧
    processFile platform voyage f = .error .valueError ∧
    ∀ pre post : List SrcFile, (∀ g ∈ pre, isOkE (processFile platform voyage g) = true) →
      processBatch platform voyage (pre ++ f :: post) = .error .valueError := by
  have h1 : getImageOutputFileName platform voyage f.path f.openRes = .error .valueError := by
    rw [hopen]
    simp [getImageOutputFileName, hidx]
  have h2 : processFile platform voyage f = .error .valueError := by
    unfold processFile
    simp [hfile, hcomp, hdep, hext, h1]
  refine ⟨h1, h2, ?_⟩
  intro pre post hpre
  induction pre with
  | nil => simp [processBatch, h2]
  | cons g rest ih =>
    have hg := hpre g (by simp)
    cases hpg : processFile platform voyage g with
    | error e =>
      rw [hpg] at hg
      cases hg
    | ok pr =>
      obtain ⟨r, logs⟩ := pr
      have hrec := ih (fun g2 hg2 => hpre g2 (List.mem_cons_of_mem _ hg2))
      simp [processBatch, hpg, hrec]

/-- Witness for amended C10: the readable still `IMG_abc.JPG` raises
`ValueError` in extraction, in its own `_process` iteration, and out of a
batch that first processed a well-formed file. -/
theorem c10_amended_valueerror_propagates_witness :
    getImageOutputFileName cfgPlatform cfgVoyage badTailPath
        (.opened (some (some c3Exif))) = .error .valueError ∧
    processFile cfgPlatform cfgVoyage c2BadFile = .error .valueError ∧
    processBatch cfgPlatform cfgVoyage [wUnreadable, c2BadFile] = .error .valueError := by
  have h := c10_amended_valueerror_propagates cfgPlatform cfgVoyage c2BadFile
    (some (some c3Exif)) depFull depTok rfl (by decide) rfl (by decide) (by decide) (by decide)
  exact ⟨h.1, h.2.1, h.2.2 [wUnreadable] [] (by decide)⟩

/-- C8 (amended): the thumbnail/overview exclusion lives in `_package`, not
in `_process` (which routes marker-named flat files like any others — see
the counterexample): every regular file whose name contains the `_THUMB` or
`overview` marker fails the output mapper's media guard and is packaged as a
plain record — destination path, no metadata, no correlation attempted. -/
theorem c8_amended_marker_excluded_in_package (dataDir dep : PyStr) (rows : List TeleRow)
    (e : PkgEntry) (hdep : pyIdxNeg (pySplit '/' dataDir) 2 = some dep)
    (hfile : e.isFile = true)
    (hmark : pyContains thumbMarker (pyName (dataDir ++ '/' :: e.rel)) = true ∨
      pyContains overviewMarker (pyName (dataDir ++ '/' :: e.rel)) = true) :
    packageEntry dataDir rows e =
      .ok (some (dataDir ++ '/' :: e.rel, ⟨dep ++ '/' :: e.rel, none⟩)) := by
  have hguard : pkgIsMediaTarget (pyName (dataDir ++ '/' :: e.rel))
      (pyLower (pySuffix (pyName (dataDir ++ '/' :: e.rel)))) = false := by
    unfold pkgIsMediaTarget
    rcases hmark with h | h <;> simp [h]
  simp [packageEntry, hdep, hguard, hfile]

/-- Witness for amended C8: a routed thumbnail file is packaged with a
destination and no metadata, even against an empty telemetry table. -/
theorem c8_amended_marker_excluded_in_package_witness :
    packageEntry pkgDataDir [] c1ThumbEntry = .ok (some (c1ThumbFull, ⟨c1ThumbOut, none⟩)) := by
  have h := c8_amended_marker_excluded_in_package pkgDataDir depFull [] c1ThumbEntry
    (by decide) rfl (Or.inl (by decide))
  rw [h]
  decide

/-- C9: when no `.CSV` telemetry log is present in the routed `data/`
subdirectory at packaging time, `_package` fails with the
MissingTelemetryFile failure (the `StopIteration` escaping from `next` over
the empty glob), while `_process` — routing and thumbnailing, which ran
first and never consult the telemetry table — is unaffected: the pipeline
pair carries the untouched routing outcome alongside the packaging
failure. -/
theorem c9_missing_telemetry_fatal_package_only (platform voyage : PyStr)
    (files : List SrcFile) (dataDir : PyStr) (entries : List PkgEntry)
    (rawRows : List RawRow) (h : entries.any isDataCsvEntry = false) :
    pipelineRun platform voyage files dataDir entries rawRows =
      (processBatch platform voyage files, .error .missingTelemetryFile) := by
  unfold pipelineRun packageBatch
  rw [h]
  rfl

/-- Witness for C9: a run whose package-phase listing has a routed still but
no `data/*.CSV` entry: routing completes normally, packaging fails with
MissingTelemetryFile. -/
theorem c9_missing_telemetry_fatal_package_only_witness :
    pipelineRun cfgPlatform cfgVoyage c9Files pkgDataDir c9Entries [] =
      (.ok ([c9Routed], c9Logs), .error .missingTelemetryFile) := by
  have h := c9_missing_telemetry_fatal_package_only cfgPlatform cfgVoyage c9Files
    pkgDataDir c9Entries [] (by decide)
  rw [h]
  decide

/-- C6: for every still with a valid EXIF DateTime (and a processable path
and configuration: a parsable trailing index token, a deep-enough path
giving the deployment token, an underscore-free non-empty platform id and a
voyage id with at least two underscore-separated parts), re-parsing the
produced StandardizedName exactly as the output mapper does — splitting the
filename stem on underscores and parsing field index 5 with the
`YYYYMMDDTHHMMSSZ` format — yields the very timestamp extracted from the
EXIF DateTime tag. -/
theorem c6_name_roundtrip (platform voyage path es : PyStr) (ts : Timestamp)
    (idx : Int) (comp dep v0 v1 : PyStr) (vrest : List PyStr)
    (hpn : platform ≠ []) (hp : '_' ∉ platform)
    (hidx : pyInt (pyHeadD (pySplit '.' (pyLast (pySplit '_' path)))) = some idx)
    (hexif : parseExifDateTime es = some ts)
    (hcomp : pyIdxNeg (pySplit '/' path) 3 = some comp)
    (hdep : pyIdx (pySplit '_' comp) 2 = some dep)
    (hv : pySplit '_' voyage = v0 :: v1 :: vrest) :
    getImageOutputFileName platform voyage path (.opened (some (some es))) =
      .ok (mkImageName platform v0 v1 dep ts idx, []) ∧
    (stemField (mkImageName platform v0 v1 dep ts idx) 5).bind parseCompact = some ts := by
  have hdm : '_' ∉ dep := not_sep_of_mem_pySplit (List.get?_mem hdep)
  have h0 : '_' ∉ v0 := not_sep_of_mem_pySplit (show v0 ∈ pySplit '_' voyage by
    rw [hv]
    exact List.mem_cons_self v0 (v1 :: vrest))
  have h1 : '_' ∉ v1 := not_sep_of_mem_pySplit (show v1 ∈ pySplit '_' voyage by
    rw [hv]
    exact List.mem_cons_of_mem v0 (List.mem_cons_self v1 vrest))
  constructor
  · simp [getImageOutputFileName, hidx, hexif, hcomp, hdep, hv]
  · exact (mkImageName_reparse platform v0 v1 dep ts idx hpn hp h0 h1 hdm
      (valid_of_parseExifDateTime hexif)).1

/-- Witness for C6 at the C3 scenario: the name produced for
`IMG_0001.JPG` re-parses at stem field 5 to the EXIF timestamp
`2018-11-25 10:15:30`. -/
theorem c6_name_roundtrip_witness :
    getImageOutputFileName cfgPlatform cfgVoyage c3Path (.opened (some (some c3Exif))) =
      .ok (mkImageName cfgPlatform voyPrefix voySuffix depTok c3Ts 1, []) ∧
    (stemField (mkImageName cfgPlatform voyPrefix voySuffix depTok c3Ts 1) 5).bind
      parseCompact = some c3Ts :=
  c6_name_roundtrip cfgPlatform cfgVoyage c3Path c3Exif c3Ts 1 depFull depTok
    voyPrefix voySuffix [] (by decide) (by decide) (by decide) (by decide) (by decide)
    (by decide) (by decide)

/-- C7 counterexample established the collision for data logs; the amended
positive part: two stills of one deployment whose (timestamp, index) pairs
differ are assigned distinct destination paths under `images/`, because the
name embeds both fields faithfully.  (Videos with equal timestamps and
multiple data logs do collide — see `c7_counterexample_csv_collision`.) -/
theorem c7_amended_still_dest_unique (platform v0 v1 dep : PyStr) (ts1 ts2 : Timestamp)
    (i1 i2 : Int) (hpn : platform ≠ []) (hp : '_' ∉ platform) (h0 : '_' ∉ v0)
    (h1 : '_' ∉ v1) (hd : '_' ∉ dep) (hv1 : ts1.Valid) (hv2 : ts2.Valid)
    (hne : ts1 ≠ ts2 ∨ i1 ≠ i2) :
    "images/".data ++ mkImageName platform v0 v1 dep ts1 i1 ≠
      "images/".data ++ mkImageName platform v0 v1 dep ts2 i2 := by
  intro he
  have hn : mkImageName platform v0 v1 dep ts1 i1 = mkImageName platform v0 v1 dep ts2 i2 :=
    List.append_cancel_left he
  obtain ⟨r1a, r1b⟩ := mkImageName_reparse platform v0 v1 dep ts1 i1 hpn hp h0 h1 hd hv1
  obtain ⟨r2a, r2b⟩ := mkImageName_reparse platform v0 v1 dep ts2 i2 hpn hp h0 h1 hd hv2
  rw [hn] at r1a r1b
  rcases hne with hne | hne
  · rw [r2a] at r1a
    exact hne (Option.some.inj r1a).symm
  · rw [r2b] at r1b
    exact hne (Option.some.inj r1b).symm

/-- Witness for amended C7: two stills one second (or one index) apart get
distinct destinations. -/
theorem c7_amended_still_dest_unique_witness :
    "images/".data ++ mkImageName cfgPlatform voyPrefix voySuffix depTok c3Ts 1 ≠
      "images/".data ++ mkImageName cfgPlatform voyPrefix voySuffix depTok
        ⟨2018, 11, 25, 10, 15, 31⟩ 1 :=
  c7_amended_still_dest_unique cfgPlatform voyPrefix voySuffix depTok c3Ts
    ⟨2018, 11, 25, 10, 15, 31⟩ 1 1 (by decide) (by decide) (by decide) (by decide)
    (by decide) (by decide) (by decide) (Or.inl (by decide))

/-- C4: for every video packaged against a non-empty telemetry table (with a
processable standardized name: deployment token available, `.mp4` suffix, no
markers, and stem field 4 parsing as the filename timestamp), correlation
selects the telemetry row minimizing the absolute difference between the
row's floored FinalTime and the filename timestamp, ties broken by first
occurrence in table order, and the video always receives a match: its
record carries that nearest row. -/
theorem c4_video_nearest_match (dataDir dep iso : PyStr) (rows : List TeleRow)
    (e : PkgEntry) (target : Timestamp)
    (hdep : pyIdxNeg (pySplit '/' dataDir) 2 = some dep)
    (hfile : e.isFile = true)
    (hsfx : pyLower (pySuffix (pyName (dataDir ++ '/' :: e.rel))) = mp4ExtL)
    (hmedia : pkgIsMediaTarget (pyName (dataDir ++ '/' :: e.rel)) mp4ExtL = true)
    (hiso : stemField (pyName (dataDir ++ '/' :: e.rel)) 4 = some iso)
    (htarget : parseCompact iso = some target)
    (hrows : rows ≠ []) :
    ∃ i row, videoMatchIdx rows target = some i ∧ rows.get? i = some row ∧
      packageEntry dataDir rows e =
        .ok (some (dataDir ++ '/' :: e.rel, ⟨dep ++ '/' :: e.rel, some (target, row)⟩)) ∧
      (∀ j < rows.length, ∀ rj, rows.get? j = some rj →
        rowDiff target row ≤ rowDiff target rj) ∧
      (∀ j < i, ∀ rj, rows.get? j = some rj → rowDiff target row < rowDiff target rj) := by
  have hmap : rows.map (rowDiff target) ≠ [] := by
    cases rows with
    | nil => exact absurd rfl hrows
    | cons a l => simp
  obtain ⟨i, hi, hilen, hle, hlt⟩ := idxminIdx_spec hmap
  rw [List.length_map] at hilen
  have hrow : rows.get? i = some (rows.get ⟨i, hilen⟩) := List.get?_eq_get hilen
  set row := rows.get ⟨i, hilen⟩ with hrowdef
  have hconv : ∀ j rj, rows.get? j = some rj →
      (rows.map (rowDiff target)).getD j 0 = rowDiff target rj := by
    intro j rj hj
    rw [List.getD_eq_getElem?_getD, List.getElem?_map, ← List.get?_eq_getElem?, hj]
    rfl
  have hvmi : videoMatchIdx rows target = some i := hi
  have hvm : videoMatchRow rows target = some row := by
    unfold videoMatchRow
    rw [hvmi]
    exact hrow
  have hjne : (mp4ExtL == jpgExtL) = false := by decide
  refine ⟨i, row, hvmi, hrow, ?_, ?_, ?_⟩
  · simp [packageEntry, hdep, hfile, hsfx, hmedia, hjne, hiso, htarget, hvm]
  · intro j hj rj hrj
    have := hle j (by rw [List.length_map]; exact hj)
    rw [hconv i row hrow, hconv j rj hrj] at this
    exact this
  · intro j hj rj hrj
    have := hlt j hj
    rw [hconv i row hrow, hconv j rj hrj] at this
    exact this

/-- Witness for C4 at the spec scenario: the video's creation time
`2018-11-25T10:16:02.500000Z` extracts to `20181125T101602Z`; against rows
at 10:16:00 and 10:16:05 the nearest match is the first row (index 0,
difference 2s versus 3s), and the packaged record carries it. -/
theorem c4_video_nearest_match_witness :
    getMp4Timestamp mp4Path (.ok c4Creation) = (c4Iso, []) ∧
    videoMatchIdx c4Rows c4Target = some 0 ∧
    packageEntry pkgDataDir c4Rows c4Entry =
      .ok (some (c4Full, ⟨c4Out, some (c4Target, c4Row0)⟩)) ∧
    rowDiff c4Target c4Row0 ≤ rowDiff c4Target c4Row1 := by
  obtain ⟨i, row, hvm, hget, hpkg, hmin, -⟩ :=
    c4_video_nearest_match pkgDataDir depFull c4Iso c4Rows c4Entry c4Target
      (by decide) rfl (by decide) (by decide) (by decide) (by decide) (by decide)
  have hi : i = 0 := by
    have h0 : videoMatchIdx c4Rows c4Target = some 0 := by decide
    rw [h0] at hvm
    exact (Option.some.inj hvm).symm
  subst hi
  have hg0 : c4Rows.get? 0 = some c4Row0 := rfl
  rw [hg0] at hget
  have hrow : row = c4Row0 := (Option.some.inj hget).symm
  subst hrow
  exact ⟨by decide, hvm, hpkg, hmin 1 (by decide) c4Row1 (by decide)⟩

/-- C1 counterexample: a still present in the package-phase listing whose
floored filename timestamp (10:15:30) matches no telemetry row (the only
row is at 10:20:00) receives no record at all: the media branch is taken,
`matching_row` is empty, and the `elif` that would have packaged it without
metadata is skipped — the mapping holds only the data log, and the still's
source path is dropped, contradicting exactly-one-record-per-file. -/
theorem c1_counterexample_unmatched_still_dropped :
    c1JpgEntry ∈ c1Entries ∧ c1JpgEntry.isFile = true ∧
    packageBatch pkgDataDir c1Entries c1NoMatchRows =
      .ok [(c1CsvFull, ⟨c1CsvOut, none⟩)] ∧
    c1JpgFull ∉ [c1CsvFull] := by
  decide

/-- C1 (amended): over a package-phase listing with pairwise-distinct
relative paths, a telemetry log present, and no entry raising, the data
mapping is exactly the concatenation of per-entry contributions — so every
source path is keyed at most once (keys are pairwise distinct); every
regular file that fails the media guard (non-media files, thumbnails,
overview) contributes exactly one record with no metadata; but a still
whose parsed filename timestamp matches no telemetry row contributes no
record at all — it is dropped from the mapping rather than packaged without
metadata. -/
theorem c1_amended_package_mapping (dataDir : PyStr) (entries : List PkgEntry)
    (rawRows : List RawRow)
    (hcsv : entries.any isDataCsvEntry = true)
    (hok : ∀ e ∈ entries, isOkE (packageEntry dataDir (rawRows.map floorRow) e) = true)
    (hdist : entries.Pairwise (fun a b => a.rel ≠ b.rel)) :
    packageBatch dataDir entries rawRows =
      .ok (entries.filterMap (contribution dataDir (rawRows.map floorRow))) ∧
    (entries.filterMap (contribution dataDir (rawRows.map floorRow))).Pairwise
      (fun kv kw => kv.1 ≠ kw.1) ∧
    (∀ e : PkgEntry, ∀ dep, pyIdxNeg (pySplit '/' dataDir) 2 = some dep →
      e.isFile = true →
      pkgIsMediaTarget (pyName (dataDir ++ '/' :: e.rel))
        (pyLower (pySuffix (pyName (dataDir ++ '/' :: e.rel)))) = false →
      contribution dataDir (rawRows.map floorRow) e =
        some (dataDir ++ '/' :: e.rel, ⟨dep ++ '/' :: e.rel, none⟩)) ∧
    (∀ e : PkgEntry, ∀ iso target, e.isFile = true →
      pyLower (pySuffix (pyName (dataDir ++ '/' :: e.rel))) = jpgExtL →
      pkgIsMediaTarget (pyName (dataDir ++ '/' :: e.rel)) jpgExtL = true →
      stemField (pyName (dataDir ++ '/' :: e.rel)) 5 = some iso →
      parseCompact iso = some target →
      (rawRows.map floorRow).find? (fun r => r.finalTime == target) = none →
      contribution dataDir (rawRows.map floorRow) e = none) := by
  have hjj : (jpgExtL == jpgExtL) = true := by decide
  refine ⟨?_, ?_, ?_, ?_⟩
  · simp only [packageBatch, hcsv, if_true]
    exact packageList_all_ok hok
  · apply List.Pairwise.filterMap (contribution dataDir (rawRows.map floorRow)) ?_ hdist
    intro a b hab kv hkv kw hkw
    have ka := contribution_key (Option.mem_def.mp hkv)
    have kb := contribution_key (Option.mem_def.mp hkw)
    intro he
    rw [ka, kb] at he
    have h2 := List.append_cancel_left he
    rw [List.cons.injEq] at h2
    exact hab h2.2
  · intro e dep hdep hfile hguard
    simp [contribution, packageEntry, hdep, hfile, hguard]
  · intro e iso target hfile hsfx hmedia hiso htarget hfind
    unfold contribution packageEntry
    cases hdep : pyIdxNeg (pySplit '/' dataDir) 2 with
    | none => rfl
    | some dep =>
      simp [hdep, hfile, hsfx, hmedia, hjj, hiso, htarget, hfind]

/-- Witness for amended C1: a listing with a matched still, a thumbnail, the
data log and a directory entry: the still is packaged with metadata (its
FinalTime row, floored from 10:15:30.500000), the thumbnail and log without
metadata, the directory skipped — three records, three distinct keys. -/
theorem c1_amended_package_mapping_witness :
    packageBatch pkgDataDir c1wEntries c1wRawRows = .ok c1wExpected := by
  have h := c1_amended_package_mapping pkgDataDir c1wEntries c1wRawRows
    (by decide) (by decide) (by decide)
  rw [h.1]
  decide
